import Mathlib

/-!
Shallow embedding of the buddyhelps-runpod call-session audio engine:
the per-call session registry (src/call_state.py), the Twilio webhook
status handler (src/twilio_handlers.py), the whisper transcription pool
(src/stt_whisper.py), and the media-stream handler (src/twilio_ws.py).
Machine time is modelled in integral milliseconds; external collaborators
(STT engine, LLM, TTS, WebSocket sends) are oracle parameters which may
succeed or raise.
-/

namespace BuddyHelps

set_option maxRecDepth 100000

/-! ## Data model: call sessions (src/call_state.py) -/

/-- Conversation roles, from `add_user_message` / `add_assistant_message`. -/
inductive Role
  | user
  | assistant
deriving DecidableEq, Repr

/-- One conversation turn: `{"role": ..., "content": ...}`. -/
structure Msg where
  role : Role
  content : String
deriving DecidableEq, Repr

/-- `CallStatus` enum from call_state.py. -/
inductive CallStatus
  | ringing
  | inProgress
  | completed
  | failed
deriving DecidableEq, Repr

/-- `CallState` dataclass (the fields the core state machine touches).
`endedAt` is in milliseconds since an arbitrary epoch. -/
structure CallState where
  callSid : String
  streamSid : Option String := none
  twilioNumber : String := ""
  callerNumber : String := ""
  conversationHistory : List Msg := []
  status : CallStatus := .ringing
  endedAt : Option Nat := none
  isSpeaking : Bool := false
deriving DecidableEq, Repr

/-- `CallState.add_user_message`: append a user turn to the history. -/
def CallState.addUserMessage (cs : CallState) (text : String) : CallState :=
  { cs with conversationHistory := cs.conversationHistory ++ [⟨.user, text⟩] }

/-- `CallState.add_assistant_message`: append an assistant turn. -/
def CallState.addAssistantMessage (cs : CallState) (text : String) : CallState :=
  { cs with conversationHistory := cs.conversationHistory ++ [⟨.assistant, text⟩] }

/-! ### Python-dict semantics as an association list -/

/-- Dictionary lookup: first binding wins (dicts hold unique keys, which
`dset` maintains). -/
def dget {α : Type} : List (String × α) → String → Option α
  | [], _ => none
  | (k, v) :: rest, key => if k = key then some v else dget rest key

/-- Dictionary assignment `d[k] = v`: replaces any existing binding. -/
def dset {α : Type} (d : List (String × α)) (k : String) (v : α) :
    List (String × α) :=
  (k, v) :: d.filter (fun p => p.1 ≠ k)

/-- Dictionary `pop(k, None)`. -/
def ddel {α : Type} (d : List (String × α)) (k : String) : List (String × α) :=
  d.filter (fun p => p.1 ≠ k)

/-- `CallStateManager`: the process-wide session registry. -/
structure CallStateManager where
  calls : List (String × CallState) := []
  streamToCall : List (String × String) := []
deriving DecidableEq, Repr

/-- `CallStateManager.create_call`: builds a fresh `CallState` and stores it
under `call_sid` unconditionally (a pre-existing entry is overwritten). -/
def CallStateManager.createCall (m : CallStateManager)
    (callSid twilioNumber callerNumber : String) :
    CallStateManager × CallState :=
  let call : CallState :=
    { callSid := callSid, twilioNumber := twilioNumber,
      callerNumber := callerNumber }
  ({ m with calls := dset m.calls callSid call }, call)

/-- `CallStateManager.get_call`. -/
def CallStateManager.getCall (m : CallStateManager) (callSid : String) :
    Option CallState :=
  dget m.calls callSid

/-- `CallStateManager.register_stream`. -/
def CallStateManager.registerStream (m : CallStateManager)
    (streamSid callSid : String) : CallStateManager :=
  let m := { m with streamToCall := dset m.streamToCall streamSid callSid }
  match dget m.calls callSid with
  | some call =>
      { m with calls := dset m.calls callSid { call with streamSid := some streamSid } }
  | none => m

/-- `CallStateManager.end_call`: if the call exists, set status to
COMPLETED and stamp `ended_at` with the current time, unconditionally. -/
def CallStateManager.endCall (m : CallStateManager) (callSid : String)
    (now : Nat) : CallStateManager × Option CallState :=
  match dget m.calls callSid with
  | some call =>
      let call := { call with status := .completed, endedAt := some now }
      ({ m with calls := dset m.calls callSid call }, some call)
  | none => (m, none)

/-- `CallStateManager.remove_call`: pop from the call map, and from the
stream map when a stream was bound. -/
def CallStateManager.removeCall (m : CallStateManager) (callSid : String) :
    CallStateManager :=
  match dget m.calls callSid with
  | some call =>
      let m := { m with calls := ddel m.calls callSid }
      match call.streamSid with
      | some s => { m with streamToCall := ddel m.streamToCall s }
      | none => m
  | none => m

/-! ## Webhook status handler (src/twilio_handlers.py, `call_status`) -/

/-- The `/twilio/call-status` handler.  On "completed" for a known call
it runs `end_call` and answers "OK".  On a terminal failure status for a
known call, line 156 executes `call_state.status = CallStatus.FAILED` —
but the route's form parameter `CallStatus: str` (line 132) shadows the
`CallStatus` enum imported at line 12, so `.FAILED` is looked up on a
*string* and raises `AttributeError` before the assignment and before
`remove_call`; the handler never returns "OK" on that path.  The raise
is modelled as `.error` carrying the registry at the moment of
propagation (unchanged, since nothing was mutated yet).  Every other
path returns `.ok` with the new registry, the final value of the
affected session (if any), and the response body. -/
def callStatusHandler (m : CallStateManager) (callSid status : String)
    (now : Nat) :
    Except CallStateManager (CallStateManager × Option CallState × String) :=
  let callState := m.getCall callSid
  if status = "completed" then
    match callState with
    | some _ =>
        let r := m.endCall callSid now
        .ok (r.1, r.2, "OK")
    | none => .ok (m, none, "OK")
  else if status = "failed" ∨ status = "busy" ∨ status = "no-answer" then
    match callState with
    | some _ => .error m
    | none => .ok (m, none, "OK")
  else .ok (m, none, "OK")

/-! ### Registry lemmas -/

theorem dget_dset_self {α : Type} (d : List (String × α)) (k : String) (v : α) :
    dget (dset d k v) k = some v := by
  simp [dget, dset]

theorem dget_filter_ne {α : Type} (d : List (String × α)) (k k' : String)
    (h : k' ≠ k) :
    dget (d.filter (fun p => p.1 ≠ k)) k' = dget d k' := by
  induction d with
  | nil => rfl
  | cons p rest ih =>
      obtain ⟨pk, pv⟩ := p
      by_cases hp : pk = k
      · rw [List.filter_cons_of_neg (by simp [hp])]
        have hne : ¬ pk = k' := by rw [hp]; exact fun he => h he.symm
        rw [ih]
        simp [dget, hne]
      · rw [List.filter_cons_of_pos (by simp [hp])]
        by_cases hpk : pk = k'
        · simp only [dget, if_pos hpk]
        · simp only [dget, if_neg hpk]
          exact ih

theorem dget_dset_ne {α : Type} (d : List (String × α)) (k k' : String) (v : α)
    (h : k' ≠ k) : dget (dset d k v) k' = dget d k' := by
  simp only [dset, dget, if_neg (Ne.symm h)]
  exact dget_filter_ne d k k' h

theorem dget_filter_self {α : Type} (d : List (String × α)) (k : String) :
    dget (d.filter (fun p => p.1 ≠ k)) k = none := by
  induction d with
  | nil => rfl
  | cons p rest ih =>
      obtain ⟨pk, pv⟩ := p
      by_cases hp : pk = k
      · rw [List.filter_cons_of_neg (by simp [hp])]
        exact ih
      · rw [List.filter_cons_of_pos (by simp [hp])]
        simp only [dget, if_neg hp]
        exact ih

theorem dget_ddel_self {α : Type} (d : List (String × α)) (k : String) :
    dget (ddel d k) k = none :=
  dget_filter_self d k

/-! ## Transcription pool (src/stt_whisper.py)

The pool is shared between threads.  We model the concurrent protocol of
`_get_available_instance` / `_release_instance` as a labelled transition
system: a worker's `threading.Lock` is an `Option Nat` holder field, a step
either starts a caller waiting, grants the first free lock found by the
scan (the scan body runs under `_pool_lock`, hence atomically), grants
worker 0 to a caller whose timed scan expired (the blocking fallback), or
releases a held worker. -/

/-- Where one pool caller is in the acquire/release protocol. -/
inductive CallerPhase
  | idle
  | waiting
  | holding (i : Nat)
  | donePhase
deriving DecidableEq, Repr

/-- Global pool state: per-worker lock holder and busy flag, per-caller
phase.  Workers and callers are both indexed by `Nat`; only worker indices
below the pool size ever hold a lock. -/
structure PoolSys where
  lockHolder : Nat → Option Nat
  busy : Nat → Bool
  phase : Nat → CallerPhase

/-- Pool state at construction: no locks held, nothing busy, no callers. -/
def initPool : PoolSys :=
  { lockHolder := fun _ => none, busy := fun _ => false,
    phase := fun _ => .idle }

/-- One interleaved step of the pool protocol for a pool of `numInstances`
workers.  `scanAcquire` is the loop body of `_get_available_instance`
executed under `_pool_lock`: it grants the first worker whose lock
`acquire(blocking=False)` succeeds and marks it busy.  `fallbackAcquire`
is the post-timeout `self.instances[0].lock.acquire(blocking=True)`,
which can only return once worker 0's lock is free.  `release` is
`_release_instance`. -/
inductive PoolStep (numInstances : Nat) : PoolSys → PoolSys → Prop
  | startWaiting (s : PoolSys) (c : Nat) :
      s.phase c = .idle →
      PoolStep numInstances s
        { s with phase := Function.update s.phase c .waiting }
  | scanAcquire (s : PoolSys) (c i : Nat) :
      s.phase c = .waiting →
      i < numInstances →
      s.lockHolder i = none →
      (∀ j, j < i → s.lockHolder j ≠ none) →
      PoolStep numInstances s
        { lockHolder := Function.update s.lockHolder i (some c),
          busy := Function.update s.busy i true,
          phase := Function.update s.phase c (.holding i) }
  | fallbackAcquire (s : PoolSys) (c : Nat) :
      s.phase c = .waiting →
      0 < numInstances →
      s.lockHolder 0 = none →
      PoolStep numInstances s
        { lockHolder := Function.update s.lockHolder 0 (some c),
          busy := Function.update s.busy 0 true,
          phase := Function.update s.phase c (.holding 0) }
  | release (s : PoolSys) (c i : Nat) :
      s.phase c = .holding i →
      PoolStep numInstances s
        { lockHolder := Function.update s.lockHolder i none,
          busy := Function.update s.busy i false,
          phase := Function.update s.phase c .donePhase }

/-- States reachable from the freshly constructed pool. -/
def PoolReachable (numInstances : Nat) : PoolSys → Prop :=
  Relation.ReflTransGen (PoolStep numInstances) initPool

/-- The pool's inductive invariant tying caller phases to lock holders and
busy flags. -/
def PoolInv (numInstances : Nat) (s : PoolSys) : Prop :=
  (∀ c i, s.phase c = .holding i → i < numInstances ∧ s.lockHolder i = some c) ∧
  (∀ i c, s.lockHolder i = some c → s.phase c = .holding i) ∧
  (∀ i, s.busy i = true ↔ (s.lockHolder i).isSome)

theorem poolInv_init (numInstances : Nat) : PoolInv numInstances initPool := by
  refine ⟨fun c i hc => ?_, fun i c hl => ?_, fun i => ?_⟩
  · simp [initPool] at hc
  · simp [initPool] at hl
  · simp [initPool]

theorem poolInv_step (numInstances : Nat) (s s' : PoolSys)
    (hInv : PoolInv numInstances s) (hstep : PoolStep numInstances s s') :
    PoolInv numInstances s' := by
  obtain ⟨h1, h2, h3⟩ := hInv
  cases hstep with
  | startWaiting c hc =>
      refine ⟨?_, ?_, h3⟩
      · intro c' i' hc'
        simp only at hc'
        by_cases hcc : c' = c
        · subst hcc
          rw [Function.update_same] at hc'
          cases hc'
        · rw [Function.update_noteq hcc] at hc'
          exact h1 c' i' hc'
      · intro i' c' hl
        simp only at hl ⊢
        have := h2 i' c' hl
        by_cases hcc : c' = c
        · subst hcc; rw [this] at hc; cases hc
        · rw [Function.update_noteq hcc]; exact this
  | scanAcquire c i hc hi hfree _hfirst =>
      refine ⟨?_, ?_, ?_⟩
      · intro c' i' hc'
        simp only at hc' ⊢
        by_cases hcc : c' = c
        · subst hcc
          rw [Function.update_same] at hc'
          cases hc'
          exact ⟨hi, by rw [Function.update_same]⟩
        · rw [Function.update_noteq hcc] at hc'
          obtain ⟨hlt, hold⟩ := h1 c' i' hc'
          refine ⟨hlt, ?_⟩
          by_cases hii : i' = i
          · subst hii; rw [hfree] at hold; cases hold
          · rw [Function.update_noteq hii]; exact hold
      · intro i' c' hl
        simp only at hl ⊢
        by_cases hii : i' = i
        · subst hii
          rw [Function.update_same] at hl
          cases hl
          rw [Function.update_same]
        · rw [Function.update_noteq hii] at hl
          have := h2 i' c' hl
          by_cases hcc : c' = c
          · subst hcc; rw [this] at hc; cases hc
          · rw [Function.update_noteq hcc]; exact this
      · intro i'
        simp only
        by_cases hii : i' = i
        · subst hii; rw [Function.update_same, Function.update_same]; simp
        · rw [Function.update_noteq hii, Function.update_noteq hii]; exact h3 i'
  | fallbackAcquire c hc hn hfree =>
      refine ⟨?_, ?_, ?_⟩
      · intro c' i' hc'
        simp only at hc' ⊢
        by_cases hcc : c' = c
        · subst hcc
          rw [Function.update_same] at hc'
          cases hc'
          exact ⟨hn, by rw [Function.update_same]⟩
        · rw [Function.update_noteq hcc] at hc'
          obtain ⟨hlt, hold⟩ := h1 c' i' hc'
          refine ⟨hlt, ?_⟩
          by_cases hii : i' = 0
          · subst hii; rw [hfree] at hold; cases hold
          · rw [Function.update_noteq hii]; exact hold
      · intro i' c' hl
        simp only at hl ⊢
        by_cases hii : i' = 0
        · subst hii
          rw [Function.update_same] at hl
          cases hl
          rw [Function.update_same]
        · rw [Function.update_noteq hii] at hl
          have := h2 i' c' hl
          by_cases hcc : c' = c
          · subst hcc; rw [this] at hc; cases hc
          · rw [Function.update_noteq hcc]; exact this
      · intro i'
        simp only
        by_cases hii : i' = 0
        · subst hii; rw [Function.update_same, Function.update_same]; simp
        · rw [Function.update_noteq hii, Function.update_noteq hii]; exact h3 i'
  | release c i hc =>
      have hold : s.lockHolder i = some c := (h1 c i hc).2
      refine ⟨?_, ?_, ?_⟩
      · intro c' i' hc'
        simp only at hc' ⊢
        by_cases hcc : c' = c
        · subst hcc
          rw [Function.update_same] at hc'
          cases hc'
        · rw [Function.update_noteq hcc] at hc'
          obtain ⟨hlt, holdc'⟩ := h1 c' i' hc'
          refine ⟨hlt, ?_⟩
          by_cases hii : i' = i
          · subst hii
            rw [holdc'] at hold
            cases hold
            exact absurd rfl hcc
          · rw [Function.update_noteq hii]; exact holdc'
      · intro i' c' hl
        simp only at hl ⊢
        by_cases hii : i' = i
        · subst hii
          rw [Function.update_same] at hl
          cases hl
        · rw [Function.update_noteq hii] at hl
          have := h2 i' c' hl
          by_cases hcc : c' = c
          · subst hcc
            rw [this] at hc
            cases hc
            exact absurd rfl hii
          · rw [Function.update_noteq hcc]; exact this
      · intro i'
        simp only
        by_cases hii : i' = i
        · subst hii; rw [Function.update_same, Function.update_same]; simp
        · rw [Function.update_noteq hii, Function.update_noteq hii]; exact h3 i'

theorem poolInv_reachable (numInstances : Nat) (s : PoolSys)
    (h : PoolReachable numInstances s) : PoolInv numInstances s := by
  induction h with
  | refl => exact poolInv_init numInstances
  | tail _ hstep ih => exact poolInv_step numInstances _ _ ih hstep

/-! ### The acquire procedure of `_get_available_instance`

We model the procedure a single caller runs against the pool it observes:
`trace t` is the vector of lock-busy flags at the caller's `t`-th retry
(one retry every 5ms).  The timed phase rescans until the deadline; after
`timeout` retries the caller blocks on worker 0's lock, which returns at
the first instant worker 0 is free. -/

/-- Index of the first instance whose `lock.acquire(blocking=False)`
succeeds — the `for instance in self.instances` scan. -/
def firstFree : List Bool → Option Nat
  | [] => none
  | b :: rest => if b then (firstFree rest).map (· + 1) else some 0

/-- The timed rescan loop: from tick `t`, with `fuel` retries before the
deadline, return the first (tick, worker) the scan can grab. -/
def scanUntil (trace : Nat → List Bool) : Nat → Nat → Option (Nat × Nat)
  | _, 0 => none
  | t, fuel + 1 =>
      match firstFree (trace t) with
      | some i => some (t, i)
      | none => scanUntil trace (t + 1) fuel

/-- `_get_available_instance`: the timed scan, then the blocking wait on
worker index 0.  The hypothesis `hf` — worker 0 is free at some tick after
the deadline — is what the blocking `lock.acquire(blocking=True)`
returning amounts to. -/
def getAvailableInstance (trace : Nat → List Bool) (timeout : Nat)
    (hf : ∃ t, timeout ≤ t ∧ (trace t).head? = some false) : Nat × Nat :=
  match scanUntil trace 0 timeout with
  | some r => r
  | none => (Nat.find hf, 0)

theorem firstFree_spec (l : List Bool) (i : Nat) (h : firstFree l = some i) :
    l.getD i true = false := by
  induction l generalizing i with
  | nil => cases h
  | cons b rest ih =>
      by_cases hb : b
      · subst hb
        simp only [firstFree, if_true, Option.map_eq_some'] at h
        obtain ⟨j, hj, hji⟩ := h
        cases i with
        | zero => cases hji
        | succ i' =>
            have hj' : j = i' := by omega
            have hres := ih i' (hj' ▸ hj)
            simpa using hres
      · simp only [Bool.not_eq_true] at hb
        subst hb
        simp only [firstFree, if_false] at h
        cases h
        rfl

theorem scanUntil_spec (trace : Nat → List Bool) (t fuel : Nat) (r : Nat × Nat)
    (h : scanUntil trace t fuel = some r) :
    (trace r.1).getD r.2 true = false ∧ t ≤ r.1 ∧ r.1 < t + fuel := by
  induction fuel generalizing t with
  | zero => cases h
  | succ fuel ih =>
      simp only [scanUntil] at h
      cases hff : firstFree (trace t) with
      | some i =>
          rw [hff] at h
          cases h
          exact ⟨firstFree_spec _ _ hff, Nat.le_refl _, by omega⟩
      | none =>
          rw [hff] at h
          obtain ⟨h1, h2, h3⟩ := ih (t + 1) h
          exact ⟨h1, by omega, by omega⟩

/-- The worker `getAvailableInstance` hands back is free at the tick it
was grabbed, and it was obtained either by the timed scan before the
deadline or as worker 0 by the blocking fallback at or after it. -/
theorem getAvailableInstance_spec (trace : Nat → List Bool) (timeout : Nat)
    (hf : ∃ t, timeout ≤ t ∧ (trace t).head? = some false) :
    (trace (getAvailableInstance trace timeout hf).1).getD
        (getAvailableInstance trace timeout hf).2 true = false ∧
    ((getAvailableInstance trace timeout hf).1 < timeout ∨
      ((getAvailableInstance trace timeout hf).2 = 0 ∧
        timeout ≤ (getAvailableInstance trace timeout hf).1)) := by
  cases hscan : scanUntil trace 0 timeout with
  | some r =>
      have hg : getAvailableInstance trace timeout hf = r := by
        unfold getAvailableInstance; rw [hscan]
      rw [hg]
      obtain ⟨h1, _, h3⟩ := scanUntil_spec trace 0 timeout r hscan
      exact ⟨h1, Or.inl (by omega)⟩
  | none =>
      have hg : getAvailableInstance trace timeout hf = (Nat.find hf, 0) := by
        unfold getAvailableInstance; rw [hscan]
      rw [hg]
      have hfind := Nat.find_spec hf
      refine ⟨?_, Or.inr ⟨rfl, hfind.1⟩⟩
      have hhead := hfind.2
      cases htr : trace (Nat.find hf) with
      | nil => rw [htr] at hhead; cases hhead
      | cons b rest =>
          rw [htr] at hhead
          simp only [List.head?] at hhead
          cases hhead
          rfl

/-- Number of busy-marked workers in a pool of size `numInstances`. -/
def busyCount (numInstances : Nat) (s : PoolSys) : Nat :=
  ((Finset.range numInstances).filter (fun i => s.busy i = true)).card

theorem busyCount_le (numInstances : Nat) (s : PoolSys) :
    busyCount numInstances s ≤ numInstances := by
  calc busyCount numInstances s
      ≤ (Finset.range numInstances).card := Finset.card_filter_le _ _
    _ = numInstances := Finset.card_range numInstances

/-- Extract the held worker index from a caller phase. -/
def heldIndex : CallerPhase → Option Nat
  | .holding i => some i
  | _ => none

/-! ## Pool `transcribe` (src/stt_whisper.py, lines 159-200)

`transcribe` acquires an instance, runs the engine inside `try:`, records
the instance's statistics on the success path, and releases the instance
in `finally:`.  The engine call is an oracle that either returns
(text, latency-ms) or raises. -/

/-- `WhisperInstance` dataclass (the lock is folded into the pool-level
model above; here `lockHeld` suffices for the single-instance view). -/
structure WhisperInstance where
  index : Nat
  busy : Bool := false
  lockHeld : Bool := false
  totalInferences : Nat := 0
  totalTimeMs : Nat := 0
deriving DecidableEq, Repr

/-- `_release_instance`: unconditionally clear `busy` and release the
lock.  It does not touch the usage statistics. -/
def releaseInstance (inst : WhisperInstance) : WhisperInstance :=
  { inst with busy := false, lockHeld := false }

/-- The `try:` body of `transcribe` run while holding `inst`: on engine
success, collect the text and bump `total_inferences` / `total_time_ms`;
an engine exception propagates with the statistics untouched. -/
def transcribeBody (inst : WhisperInstance)
    (engine : Except Unit (String × Nat)) :
    WhisperInstance × Except Unit String :=
  match engine with
  | .ok r =>
      ({ inst with totalInferences := inst.totalInferences + 1,
                   totalTimeMs := inst.totalTimeMs + r.2 }, .ok r.1)
  | .error e => (inst, .error e)

/-- `transcribe` from the point the instance is acquired (busy, lock
held): the `try:` body, then the `finally:` release, which runs exactly
once on both the return path and the raise path.  The final `Nat` counts
executions of `_release_instance`. -/
def transcribeFrom (inst : WhisperInstance)
    (engine : Except Unit (String × Nat)) :
    WhisperInstance × Except Unit String × Nat :=
  let r := transcribeBody inst engine
  (releaseInstance r.1, r.2, 1)

/-! ## Media-stream handler (src/twilio_ws.py)

`TwilioMediaHandler` runs a sequential per-connection event loop.  Audio
frames are 16-bit PCM sample lists after `mulaw_to_pcm16k`; wall-clock
time is in milliseconds.  The external collaborators invoked by a
pipeline run — STT, lexicon correction, LLM, TTS and the WebSocket sends
— are an oracle, each fallible call an `Except`. -/

/-- Module constants of twilio_ws.py. -/
def SILENCE_THRESHOLD : Nat := 500

/-- Milliseconds of silence before processing. -/
def SILENCE_DURATION_MS : Nat := 700

/-- Minimum speech duration (ms) to process. -/
def MIN_SPEECH_MS : Nat := 300

/-- Twilio sends 20ms chunks. -/
def CHUNK_DURATION_MS : Nat := 20

/-- Sum of squared sample values. -/
def sumSq (samples : List Int) : Int :=
  (samples.map (fun x => x * x)).sum

/-- `detect_speech_end` from audio_utils.py: a chunk is silence when it
is shorter than one sample or its RMS is below the threshold.  RMS < T
over n samples is compared squared: sum of squares < T² · n. -/
def detect_speech_end (samples : List Int) (threshold : Nat) : Bool :=
  if samples.length < 1 then true
  else sumSq samples < (threshold : Int) ^ 2 * samples.length

/-- Characters stripped from both ends, as Python `str.strip()`. -/
def stripChars (l : List Char) : List Char :=
  ((l.dropWhile Char.isWhitespace).reverse.dropWhile Char.isWhitespace).reverse

/-- `len(s.strip())` for the minimum-transcription-length check. -/
def pyStripLen (s : String) : Nat := (stripChars s.data).length

/-- Per-connection handler state (`TwilioMediaHandler.__init__`).
`speechChunks` holds accumulated PCM samples (2 bytes each);
`silenceStart` is the wall-clock ms at which trailing silence began. -/
structure Handler where
  callState : Option CallState := none
  streamSid : Option String := none
  speechChunks : List Int := []
  silenceStart : Option Nat := none
  isUserSpeaking : Bool := false
  isProcessing : Bool := false
  pendingInterrupt : Bool := false
deriving DecidableEq, Repr

/-- Apply `f` to the handler's call state, when one is attached. -/
def Handler.modifyCall (st : Handler) (f : CallState → CallState) : Handler :=
  { st with callState := st.callState.map f }

/-- External collaborators of one pipeline run.  `stt` is the result of
`stt.transcribe_bytes`; `correct` is `apply_corrections` partially applied
to the session's lexicon (spec §6 treats correction as an external,
pure collaborator); `llm` and `tts` are `llm.generate` and
`tts.synthesize_to_bytes`; `sendFail` is whether the WebSocket send of
the synthesized audio raises. -/
structure Oracle where
  stt : Except Unit String
  correct : String → String
  llm : List Msg → Except Unit String
  tts : String → Except Unit (List Int)
  sendFail : Bool

/-- Instrumentation of one `process_speech` run: whether any synthesized
audio reached the carrier, and how many times `pending_interrupt = False`
executed. -/
structure RunInfo where
  audioSent : Bool := false
  clears : Nat := 0
deriving DecidableEq, Repr

/-- `speak` (twilio_ws.py lines 264-289): set `is_speaking`, synthesize,
encode, send the audio and the playback mark.  Any exception inside is
caught and clears `is_speaking`; with no bound stream the sends are
skipped without error.  Returns the new state and whether audio was
actually sent. -/
def speak (st : Handler) (o : Oracle) (text : String) : Handler × Bool :=
  match st.callState with
  | none => (st, false)
  | some _ =>
      let st := st.modifyCall (fun cs => { cs with isSpeaking := true })
      match o.tts text with
      | .error _ =>
          (st.modifyCall (fun cs => { cs with isSpeaking := false }), false)
      | .ok _audio =>
          match st.streamSid with
          | none => (st, false)
          | some _ =>
              if o.sendFail then
                (st.modifyCall (fun cs => { cs with isSpeaking := false }), false)
              else (st, true)

/-- The `try:` body of `process_speech` (twilio_ws.py lines 205-257),
entered with `is_processing` already set.  `.error` means an uncaught
exception is propagating to the `except:` clause. -/
def processSpeechBody (st : Handler) (o : Oracle) :
    Except (Handler × RunInfo) (Handler × RunInfo) :=
  match o.stt with
  | .error _ => .error (st, {})
  | .ok textRaw =>
      if textRaw = "" ∨ pyStripLen textRaw < 2 then
        .ok (st, {})
      else
        let text := o.correct textRaw
        let st := st.modifyCall (fun cs => cs.addUserMessage text)
        if st.pendingInterrupt then
          .ok ({ st with pendingInterrupt := false },
               { audioSent := false, clears := 1 })
        else
          match o.llm ((st.callState.map
              CallState.conversationHistory).getD []) with
          | .error _ => .error (st, {})
          | .ok response =>
              if st.pendingInterrupt then
                .ok ({ st with pendingInterrupt := false },
                     { audioSent := false, clears := 1 })
              else
                let r := speak st o response
                let st := r.1.modifyCall (fun cs => cs.addAssistantMessage response)
                .ok (st, { audioSent := r.2, clears := 0 })

/-- `process_speech`: the reentrancy guard, the `try:` body, the
`except:` clause that swallows every pipeline exception, and the
`finally:` clause that resets `is_processing`. -/
def processSpeech (st : Handler) (o : Oracle) : Handler × RunInfo :=
  match st.callState with
  | none => (st, {})
  | some _ =>
      if st.isProcessing then (st, {})
      else
        let st0 := { st with isProcessing := true }
        match processSpeechBody st0 o with
        | .ok r => ({ r.1 with isProcessing := false }, r.2)
        | .error r => ({ r.1 with isProcessing := false }, r.2)

/-- `reset_audio_state`. -/
def resetAudioState (st : Handler) : Handler :=
  { st with speechChunks := [], silenceStart := none, isUserSpeaking := false }

/-- `handle_media` (twilio_ws.py lines 159-195): drop the event unless a
session in IN_PROGRESS is attached and a payload is present; classify the
frame; on speech, accumulate and flag barge-in when the agent is
speaking; on silence after speech, run the silence timer and, once it
reaches `SILENCE_DURATION_MS`, start a pipeline run when enough speech
bytes accumulated, then reset the audio state.  Returns the new handler
state and whether `process_speech` was invoked. -/
def handleMedia (st : Handler) (payload : Option (List Int)) (now : Nat)
    (o : Oracle) : Handler × Bool :=
  match st.callState with
  | none => (st, false)
  | some cs =>
      if cs.status ≠ CallStatus.inProgress then (st, false)
      else
        match payload with
        | none => (st, false)
        | some pcm =>
            if ¬ detect_speech_end pcm SILENCE_THRESHOLD then
              let st := { st with speechChunks := st.speechChunks ++ pcm,
                                  silenceStart := none,
                                  isUserSpeaking := true }
              let st := if cs.isSpeaking then
                          { st with pendingInterrupt := true }
                        else st
              (st, false)
            else
              if st.isUserSpeaking then
                match st.silenceStart with
                | none => ({ st with silenceStart := some now }, false)
                | some t0 =>
                    if SILENCE_DURATION_MS ≤ now - t0 then
                      let r :=
                        if MIN_SPEECH_MS * 32 < 2 * st.speechChunks.length then
                          ((processSpeech st o).1, true)
                        else (st, false)
                      (resetAudioState r.1, r.2)
                    else (st, false)
              else (st, false)

/-- `handle_mark`: the echoed `speech_end` mark clears `is_speaking`. -/
def handleMark (st : Handler) (name : String) : Handler :=
  if name = "speech_end" ∧ st.callState.isSome then
    st.modifyCall (fun cs => { cs with isSpeaking := false })
  else st

/-- `handle_stop`: mark the session COMPLETED, keep it registered. -/
def handleStop (st : Handler) : Handler :=
  st.modifyCall (fun cs => { cs with status := .completed })

/-- Feed a list of (frame, arrival-ms) media events through
`handle_media`, counting pipeline triggers. -/
def runFrames (st : Handler) (o : Oracle) :
    List (List Int × Nat) → Handler × Nat
  | [] => (st, 0)
  | f :: rest =>
      let r := handleMedia st (some f.1) f.2 o
      let rr := runFrames r.1 o rest
      (rr.1, (if r.2 then 1 else 0) + rr.2)

/-! ## Concrete fixtures used by witnesses and counterexamples -/

/-- One 20ms frame (320 samples at 16kHz) of loud speech. -/
def speechFrame : List Int := List.replicate 320 600

/-- One 20ms frame of synthetic silence (RMS 0). -/
def silenceFrame : List Int := List.replicate 320 0

/-- An in-progress session. -/
def csEx : CallState := { callSid := "CA1", status := .inProgress }

/-- A handler bound to `csEx` with a live stream. -/
def hInit : Handler := { callState := some csEx, streamSid := some "MZ1" }

/-- Oracle whose transcription is empty (pipeline short-circuits). -/
def oEmpty : Oracle :=
  { stt := .ok "", correct := id, llm := fun _ => .ok "",
    tts := fun _ => .ok [], sendFail := false }

/-- Oracle for a fully successful pipeline run. -/
def oGood : Oracle :=
  { stt := .ok "hello there", correct := id,
    llm := fun _ => .ok "the reply", tts := fun _ => .ok [1, 2],
    sendFail := false }

/-- Oracle whose synthesize stage raises. -/
def oTtsFail : Oracle :=
  { stt := .ok "hello there", correct := id,
    llm := fun _ => .ok "the reply", tts := fun _ => .error (),
    sendFail := false }

/-- `k` speech frames then `m` silence frames, one every 20ms. -/
def mkC9Frames (k m : Nat) : List (List Int × Nat) :=
  ((List.range k).map (fun j => (speechFrame, CHUNK_DURATION_MS * j))) ++
  ((List.range m).map (fun j => (silenceFrame, CHUNK_DURATION_MS * (k + j))))

/-! ## Claim C5 -/

theorem getCall_removeCall_self (m : CallStateManager) (k : String) :
    (m.removeCall k).getCall k = none := by
  unfold CallStateManager.removeCall CallStateManager.getCall
  cases hd : dget m.calls k with
  | none => exact hd
  | some call =>
      cases hs : call.streamSid with
      | none => simp [hs, dget_ddel_self]
      | some s => simp [hs, dget_ddel_self]

/-- C5 (code bug): for every call-status webhook carrying a terminal
failure status ("failed", "busy" or "no-answer") for a known call, the
handler raises before mutating anything — the route's `CallStatus: str`
form parameter shadows the enum, so `CallStatus.FAILED` is an attribute
lookup on a string and raises `AttributeError`.  The session is neither
marked FAILED nor evicted, and "OK" is never returned: the handler
propagates the exception with the registry untouched. -/
theorem c5_terminal_failure_raises (m : CallStateManager)
    (callSid status : String) (now : Nat) (cs : CallState)
    (hstat : status = "failed" ∨ status = "busy" ∨ status = "no-answer")
    (hget : m.getCall callSid = some cs) :
    callStatusHandler m callSid status now = .error m ∧
    m.getCall callSid = some cs := by
  rcases hstat with h | h | h <;> subst h <;>
    exact ⟨by simp [callStatusHandler, hget], hget⟩

/-- The in-progress session and registry on which the webhook bug
fires. -/
def cs5 : CallState :=
  { callSid := "A", status := .inProgress, streamSid := some "S" }

/-- Registry holding the known call when the "busy" webhook arrives. -/
def m5 : CallStateManager :=
  { calls := [("A", cs5)], streamToCall := [("S", "A")] }

/-- C5 witness: the concrete failing input — a "busy" webhook for the
known call "A" — on which the handler raises with the session still
registered and its status unchanged (not FAILED). -/
theorem c5_witness :
    (("busy" = "failed" ∨ "busy" = "busy" ∨ "busy" = "no-answer") ∧
      m5.getCall "A" = some cs5) ∧
    (callStatusHandler m5 "A" "busy" 99 = .error m5 ∧
      m5.getCall "A" = some cs5) ∧
    cs5.status ≠ CallStatus.failed :=
  ⟨⟨Or.inr (Or.inl rfl), by decide⟩,
   c5_terminal_failure_raises m5 "A" "busy" 99 cs5
     (Or.inr (Or.inl rfl)) (by decide),
   by decide⟩

/-! ## Claim C6 -/

/-- A session already registered under call id "A". -/
def cs6 : CallState := { callSid := "A", callerNumber := "111" }

/-- Registry already containing "A". -/
def m6 : CallStateManager := { calls := [("A", cs6)] }

/-- C6 counterexample: creating a call with an id already present does
not fail — it succeeds and replaces the stored session, so the existing
session is not left unchanged. -/
theorem c6_counterexample :
    (m6.createCall "A" "t2" "222").1.getCall "A" =
      some (m6.createCall "A" "t2" "222").2 ∧
    (m6.createCall "A" "t2" "222").2.callerNumber = "222" ∧
    (m6.createCall "A" "t2" "222").1.getCall "A" ≠ some cs6 := by
  decide

/-- C6 amended: `create_call` never fails; with an already-present call
id it silently replaces the stored session with a fresh one and returns
it, leaving entries under other ids unchanged. -/
theorem c6_create_overwrites (m : CallStateManager)
    (callSid t c k : String) (hk : k ≠ callSid) :
    (m.createCall callSid t c).1.getCall callSid =
      some (m.createCall callSid t c).2 ∧
    (m.createCall callSid t c).2 =
      { callSid := callSid, twilioNumber := t, callerNumber := c } ∧
    (m.createCall callSid t c).1.getCall k = m.getCall k := by
  refine ⟨?_, rfl, ?_⟩
  · simp [CallStateManager.createCall, CallStateManager.getCall, dget_dset_self]
  · simp [CallStateManager.createCall, CallStateManager.getCall,
      dget_dset_ne _ _ _ _ hk]

/-- C6 witness: overwrite "A", other key "B" unaffected. -/
theorem c6_witness :
    ("B" ≠ "A") ∧
    ((m6.createCall "A" "t2" "222").1.getCall "A" =
      some (m6.createCall "A" "t2" "222").2 ∧
    (m6.createCall "A" "t2" "222").2 =
      { callSid := "A", twilioNumber := "t2", callerNumber := "222" } ∧
    (m6.createCall "A" "t2" "222").1.getCall "B" = m6.getCall "B") :=
  ⟨by decide, c6_create_overwrites m6 "A" "t2" "222" "B" (by decide)⟩

/-! ## Claim C7 -/

/-- A session already in the terminal FAILED state, ended at t=5ms. -/
def cs7 : CallState := { callSid := "A", status := .failed, endedAt := some 5 }

/-- Registry holding the terminal session. -/
def m7 : CallStateManager := { calls := [("A", cs7)] }

/-- C7 counterexample: `end_call` on a session already terminal (FAILED,
ended at 5) does not return it unchanged — it overwrites the status to
COMPLETED and restamps the end time. -/
theorem c7_counterexample :
    cs7.status = .failed ∧
    (m7.endCall "A" 9).2 =
      some { cs7 with status := .completed, endedAt := some 9 } ∧
    (m7.endCall "A" 9).2 ≠ some cs7 := by
  decide

/-- C7 amended: for every session present in the registry, `end_call`
unconditionally sets the status to COMPLETED and stamps the end time
with the current clock, regardless of any prior (even terminal) status;
the updated session is stored back and returned. -/
theorem c7_endCall_unconditional (m : CallStateManager) (k : String)
    (now : Nat) (cs : CallState) (hget : m.getCall k = some cs) :
    (m.endCall k now).2 =
      some { cs with status := .completed, endedAt := some now } ∧
    (m.endCall k now).1.getCall k =
      some { cs with status := .completed, endedAt := some now } := by
  unfold CallStateManager.endCall
  unfold CallStateManager.getCall at hget
  simp [hget, CallStateManager.getCall, dget_dset_self]

/-- C7 witness: the amended behavior on the terminal session `cs7`. -/
theorem c7_witness :
    m7.getCall "A" = some cs7 ∧
    ((m7.endCall "A" 9).2 =
      some { cs7 with status := .completed, endedAt := some 9 } ∧
    (m7.endCall "A" 9).1.getCall "A" =
      some { cs7 with status := .completed, endedAt := some 9 }) :=
  ⟨by decide, c7_endCall_unconditional m7 "A" 9 cs7 (by decide)⟩

/-! ## Claim C4 -/

/-- A held worker with some accumulated statistics. -/
def inst4 : WhisperInstance :=
  { index := 2, busy := true, lockHeld := true,
    totalInferences := 7, totalTimeMs := 1000 }

/-- C4 counterexample: when the engine call raises, the worker is freed
but its usage statistics are not recorded — refuting the claim that
release records usage statistics on every exit path. -/
theorem c4_counterexample :
    (transcribeFrom inst4 (.error ())).1.busy = false ∧
    (transcribeFrom inst4 (.error ())).1.lockHeld = false ∧
    (transcribeFrom inst4 (.error ())).1.totalInferences = 7 ∧
    (transcribeFrom inst4 (.error ())).1.totalTimeMs = 1000 := by
  decide

/-- C4 amended: `_release_instance` runs exactly once on both the return
path and the raise path of `transcribe` and unconditionally frees the
worker; latency/usage statistics are recorded by the `transcribe` body
only on the success path, before release. -/
theorem c4_release_exactly_once (inst : WhisperInstance)
    (engine : Except Unit (String × Nat)) :
    (transcribeFrom inst engine).2.2 = 1 ∧
    (transcribeFrom inst engine).1.busy = false ∧
    (transcribeFrom inst engine).1.lockHeld = false ∧
    (∀ text ms, engine = .ok (text, ms) →
      (transcribeFrom inst engine).1.totalInferences =
        inst.totalInferences + 1 ∧
      (transcribeFrom inst engine).1.totalTimeMs = inst.totalTimeMs + ms ∧
      (transcribeFrom inst engine).2.1 = .ok text) ∧
    (∀ e, engine = .error e →
      (transcribeFrom inst engine).1.totalInferences =
        inst.totalInferences ∧
      (transcribeFrom inst engine).1.totalTimeMs = inst.totalTimeMs ∧
      (transcribeFrom inst engine).2.1 = .error e) := by
  cases engine with
  | ok r =>
      refine ⟨rfl, rfl, rfl, ?_, ?_⟩
      · intro text ms he
        cases he
        exact ⟨rfl, rfl, rfl⟩
      · intro e he
        cases he
  | error e =>
      refine ⟨rfl, rfl, rfl, ?_, ?_⟩
      · intro text ms he
        cases he
      · intro e' he
        cases he
        exact ⟨rfl, rfl, rfl⟩

/-- C4 witness: a successful engine call on `inst4`. -/
theorem c4_witness :
    (transcribeFrom inst4 (.ok ("hi", 50))).2.2 = 1 ∧
    (transcribeFrom inst4 (.ok ("hi", 50))).1.busy = false ∧
    (transcribeFrom inst4 (.ok ("hi", 50))).1.lockHeld = false ∧
    (∀ text ms, (.ok ("hi", 50) : Except Unit (String × Nat)) = .ok (text, ms) →
      (transcribeFrom inst4 (.ok ("hi", 50))).1.totalInferences =
        inst4.totalInferences + 1 ∧
      (transcribeFrom inst4 (.ok ("hi", 50))).1.totalTimeMs =
        inst4.totalTimeMs + ms ∧
      (transcribeFrom inst4 (.ok ("hi", 50))).2.1 = .ok text) ∧
    (∀ e, (.ok ("hi", 50) : Except Unit (String × Nat)) = .error e →
      (transcribeFrom inst4 (.ok ("hi", 50))).1.totalInferences =
        inst4.totalInferences ∧
      (transcribeFrom inst4 (.ok ("hi", 50))).1.totalTimeMs =
        inst4.totalTimeMs ∧
      (transcribeFrom inst4 (.ok ("hi", 50))).2.1 = .error e) :=
  c4_release_exactly_once inst4 (.ok ("hi", 50))

/-! ## Claim C1 -/

/-- C1: in every reachable pool state, no worker is held by two callers
simultaneously, at most `numInstances` workers are marked busy, at most
`numInstances` callers hold workers at once; and the acquire procedure
always returns a worker — one found free by the timed scan before the
deadline, or worker 0 via the blocking fallback once it is free. -/
theorem c1_pool_mutual_exclusion (numInstances : Nat) (s : PoolSys)
    (h : PoolReachable numInstances s) :
    (∀ c c' i, s.phase c = .holding i → s.phase c' = .holding i → c = c') ∧
    busyCount numInstances s ≤ numInstances ∧
    (∀ F : Finset Nat, (∀ c ∈ F, ∃ i, s.phase c = .holding i) →
      F.card ≤ numInstances) ∧
    (∀ (trace : Nat → List Bool) (timeout : Nat)
        (hf : ∃ t, timeout ≤ t ∧ (trace t).head? = some false),
        (trace (getAvailableInstance trace timeout hf).1).getD
            (getAvailableInstance trace timeout hf).2 true = false ∧
        ((getAvailableInstance trace timeout hf).1 < timeout ∨
          ((getAvailableInstance trace timeout hf).2 = 0 ∧
            timeout ≤ (getAvailableInstance trace timeout hf).1))) := by
  obtain ⟨h1, h2, h3⟩ := poolInv_reachable numInstances s h
  have hmutex : ∀ c c' i, s.phase c = .holding i → s.phase c' = .holding i →
      c = c' := by
    intro c c' i hc hc'
    have e1 := (h1 c i hc).2
    have e2 := (h1 c' i hc').2
    rw [e1] at e2
    exact Option.some.inj e2
  refine ⟨hmutex, busyCount_le numInstances s, ?_,
    fun trace timeout hf => getAvailableInstance_spec trace timeout hf⟩
  intro F hF
  have hcard := Finset.card_le_card_of_injOn
    (f := fun c => (heldIndex (s.phase c)).getD 0)
    (t := Finset.range numInstances) ?_ ?_ (s := F)
  · simpa using hcard
  · intro c hc
    obtain ⟨i, hi⟩ := hF c hc
    have hlt := (h1 c i hi).1
    simp [hi, heldIndex, Finset.mem_range]
    exact hlt
  · intro c hc c' hc' hfc
    obtain ⟨i, hi⟩ := hF c hc
    obtain ⟨i', hi'⟩ := hF c' hc'
    simp only [hi, hi', heldIndex, Option.getD_some] at hfc
    subst hfc
    exact hmutex c c' i hi hi'

/-- C1 witness: the freshly constructed pool of 2 workers. -/
theorem c1_witness :
    PoolReachable 2 initPool ∧
    ((∀ c c' i, initPool.phase c = .holding i →
        initPool.phase c' = .holding i → c = c') ∧
    busyCount 2 initPool ≤ 2 ∧
    (∀ F : Finset Nat, (∀ c ∈ F, ∃ i, initPool.phase c = .holding i) →
      F.card ≤ 2) ∧
    (∀ (trace : Nat → List Bool) (timeout : Nat)
        (hf : ∃ t, timeout ≤ t ∧ (trace t).head? = some false),
        (trace (getAvailableInstance trace timeout hf).1).getD
            (getAvailableInstance trace timeout hf).2 true = false ∧
        ((getAvailableInstance trace timeout hf).1 < timeout ∨
          ((getAvailableInstance trace timeout hf).2 = 0 ∧
            timeout ≤ (getAvailableInstance trace timeout hf).1)))) :=
  ⟨Relation.ReflTransGen.refl,
    c1_pool_mutual_exclusion 2 initPool Relation.ReflTransGen.refl⟩

/-! ## Handler step lemmas -/

theorem modifyCall_pending (st : Handler) (f : CallState → CallState) :
    (st.modifyCall f).pendingInterrupt = st.pendingInterrupt := rfl

theorem speak_pending (st : Handler) (o : Oracle) (text : String) :
    (speak st o text).1.pendingInterrupt = st.pendingInterrupt := by
  obtain ⟨cso, ss, ck, sil, iu, ip, pi⟩ := st
  cases cso <;> cases htts : o.tts text <;> cases ss <;>
    cases hsf : o.sendFail <;>
    simp [speak, Handler.modifyCall, htts, hsf]

theorem speak_history (st : Handler) (o : Oracle) (text : String) :
    (speak st o text).1.callState.map CallState.conversationHistory =
      st.callState.map CallState.conversationHistory := by
  obtain ⟨cso, ss, ck, sil, iu, ip, pi⟩ := st
  cases cso <;> cases htts : o.tts text <;> cases ss <;>
    cases hsf : o.sendFail <;>
    simp [speak, Handler.modifyCall, htts, hsf]

theorem speak_status (st : Handler) (o : Oracle) (text : String) :
    (speak st o text).1.callState.map CallState.status =
      st.callState.map CallState.status := by
  obtain ⟨cso, ss, ck, sil, iu, ip, pi⟩ := st
  cases cso <;> cases htts : o.tts text <;> cases ss <;>
    cases hsf : o.sendFail <;>
    simp [speak, Handler.modifyCall, htts, hsf]

theorem speak_isProcessing (st : Handler) (o : Oracle) (text : String) :
    (speak st o text).1.isProcessing = st.isProcessing := by
  obtain ⟨cso, ss, ck, sil, iu, ip, pi⟩ := st
  cases cso <;> cases htts : o.tts text <;> cases ss <;>
    cases hsf : o.sendFail <;>
    simp [speak, Handler.modifyCall, htts, hsf]

/-- With `pending_interrupt` clear at entry, the body of a pipeline run
leaves it clear on every path (no path of `process_speech` sets it). -/
theorem processSpeechBody_pending (st : Handler) (o : Oracle)
    (hpi : st.pendingInterrupt = false) :
    (match processSpeechBody st o with
     | .ok r => r.1.pendingInterrupt
     | .error r => r.1.pendingInterrupt) = false := by
  unfold processSpeechBody
  cases hstt : o.stt with
  | error e => exact hpi
  | ok textRaw =>
      by_cases hshort : textRaw = "" ∨ pyStripLen textRaw < 2
      · simp only [if_pos hshort]
        exact hpi
      · simp only [if_neg hshort]
        have hpend1 : (st.modifyCall
            (fun cs => cs.addUserMessage (o.correct textRaw))).pendingInterrupt
            = false := by
          simpa [Handler.modifyCall] using hpi
        rw [if_neg (by simp [hpend1])]
        cases hllm : o.llm (((st.modifyCall
            (fun cs => cs.addUserMessage (o.correct textRaw))).callState.map
              CallState.conversationHistory).getD []) with
        | error e => simpa using hpend1
        | ok response =>
            simp [hpend1, modifyCall_pending, speak_pending]

/-- A pipeline run never sets `pending_interrupt`; it can only clear it. -/
theorem processSpeech_pending_mono (st : Handler) (o : Oracle)
    (h : (processSpeech st o).1.pendingInterrupt = true) :
    st.pendingInterrupt = true := by
  obtain ⟨cso, ss, ck, sil, iu, ip, pi⟩ := st
  cases cso with
  | none => exact h
  | some cs =>
      cases ip with
      | true => exact h
      | false =>
          cases pi with
          | true => rfl
          | false =>
              exfalso
              have hb := processSpeechBody_pending
                ⟨some cs, ss, ck, sil, iu, true, false⟩ o rfl
              simp only [processSpeech] at h
              cases hres :
                  processSpeechBody ⟨some cs, ss, ck, sil, iu, true, false⟩ o with
              | ok r =>
                  rw [hres] at h hb
                  simp only at hb
                  simp [hb] at h
              | error r =>
                  rw [hres] at h hb
                  simp only at hb
                  simp [hb] at h

/-! ## Claim C10 -/

/-- C10: a media event arriving with no attached call session, or with a
session not in IN_PROGRESS, is a no-op: the handler state is returned
unchanged and no pipeline run is triggered. -/
theorem c10_media_noop (st : Handler) (payload : Option (List Int))
    (now : Nat) (o : Oracle)
    (h : st.callState = none ∨
      ∃ cs, st.callState = some cs ∧ cs.status ≠ CallStatus.inProgress) :
    handleMedia st payload now o = (st, false) := by
  rcases h with h | ⟨cs, hcs, hst⟩
  · simp [handleMedia, h]
  · simp [handleMedia, hcs, hst]

/-- C10 witness: a speech frame for a handler with no session attached. -/
theorem c10_witness :
    (({} : Handler).callState = none ∨
      ∃ cs, ({} : Handler).callState = some cs ∧
        cs.status ≠ CallStatus.inProgress) ∧
    handleMedia {} (some speechFrame) 40 oEmpty = ({}, false) :=
  ⟨Or.inl rfl, c10_media_noop {} (some speechFrame) 40 oEmpty (Or.inl rfl)⟩

/-! ## Claim C2 -/

theorem handleMedia_speech_sets_interrupt (st : Handler) (cs : CallState)
    (pcm : List Int) (now : Nat) (o : Oracle)
    (hcs : st.callState = some cs) (hst : cs.status = CallStatus.inProgress)
    (hspk : cs.isSpeaking = true)
    (hsp : detect_speech_end pcm SILENCE_THRESHOLD = false) :
    (handleMedia st (some pcm) now o).1.pendingInterrupt = true := by
  simp [handleMedia, hcs, hst, hsp, hspk]

theorem handleMedia_pending (st : Handler) (payload : Option (List Int))
    (now : Nat) (o : Oracle)
    (h : (handleMedia st payload now o).1.pendingInterrupt = true) :
    st.pendingInterrupt = true ∨
      ∃ cs, st.callState = some cs ∧ cs.isSpeaking = true := by
  obtain ⟨cso, ss, ck, sil, iu, ip, pi⟩ := st
  cases cso with
  | none => exact Or.inl h
  | some cs =>
      by_cases hst : cs.status = CallStatus.inProgress
      case neg =>
        simp [handleMedia, hst] at h
        exact Or.inl h
      case pos =>
        cases payload with
        | none =>
            simp [handleMedia, hst] at h
            exact Or.inl h
        | some pcm =>
            by_cases hsp : detect_speech_end pcm SILENCE_THRESHOLD = true
            case neg =>
              simp only [Bool.not_eq_true] at hsp
              by_cases hspk : cs.isSpeaking = true
              case pos => exact Or.inr ⟨cs, rfl, hspk⟩
              case neg =>
                simp only [Bool.not_eq_true] at hspk
                simp [handleMedia, hst, hsp, hspk] at h
                exact Or.inl h
            case pos =>
              cases iu with
              | false =>
                  simp [handleMedia, hst, hsp] at h
                  exact Or.inl h
              | true =>
                  cases sil with
                  | none =>
                      simp [handleMedia, hst, hsp] at h
                      exact Or.inl h
                  | some t0 =>
                      by_cases hth : SILENCE_DURATION_MS ≤ now - t0
                      case neg =>
                        simp [handleMedia, hst, hsp, hth] at h
                        exact Or.inl h
                      case pos =>
                        by_cases hlen : MIN_SPEECH_MS * 32 < 2 * ck.length
                        case neg =>
                          simp [handleMedia, hst, hsp, hth, hlen,
                            resetAudioState] at h
                          exact Or.inl h
                        case pos =>
                          simp [handleMedia, hst, hsp, hth, hlen,
                            resetAudioState] at h
                          exact Or.inl (processSpeech_pending_mono _ o h)

theorem handleMark_pending (st : Handler) (name : String) :
    (handleMark st name).pendingInterrupt = st.pendingInterrupt := by
  unfold handleMark
  by_cases h : name = "speech_end" ∧ st.callState.isSome = true
  · simp [h, Handler.modifyCall]
  · simp [h]

theorem handleStop_pending (st : Handler) :
    (handleStop st).pendingInterrupt = st.pendingInterrupt := rfl

theorem processSpeech_interrupt_abort (st : Handler) (cs : CallState)
    (o : Oracle) (textRaw : String)
    (hcs : st.callState = some cs) (hp : st.isProcessing = false)
    (hpend : st.pendingInterrupt = true)
    (hstt : o.stt = .ok textRaw)
    (hlong : ¬(textRaw = "" ∨ pyStripLen textRaw < 2)) :
    (processSpeech st o).2.audioSent = false ∧
    (processSpeech st o).2.clears = 1 ∧
    (processSpeech st o).1.pendingInterrupt = false ∧
    (processSpeech st o).1.callState.map CallState.conversationHistory =
      some (cs.conversationHistory ++ [⟨.user, o.correct textRaw⟩]) := by
  obtain ⟨cso, ss, ck, sil, iu, ip, pi⟩ := st
  simp only at hcs hp hpend
  subst hcs
  subst hp
  subst hpend
  simp [processSpeech, processSpeechBody, hstt, hlong, Handler.modifyCall,
    CallState.addUserMessage]

/-- C2: (i) while the agent is speaking, an incoming speech frame sets
`pending_interrupt`; (ii)–(v) no handler operation sets the flag other
than the speech branch guarded by `is_speaking` (and a pipeline run only
clears it); (vi) a run that finds the flag set at its first checkpoint
aborts without sending audio, clearing the flag exactly once. -/
theorem c2_barge_in_protocol :
    (∀ st cs pcm now o, st.callState = some cs →
       cs.status = CallStatus.inProgress → cs.isSpeaking = true →
       detect_speech_end pcm SILENCE_THRESHOLD = false →
       (handleMedia st (some pcm) now o).1.pendingInterrupt = true) ∧
    (∀ st payload now o,
       (handleMedia st payload now o).1.pendingInterrupt = true →
       st.pendingInterrupt = true ∨
         ∃ cs, st.callState = some cs ∧ cs.isSpeaking = true) ∧
    (∀ st o, (processSpeech st o).1.pendingInterrupt = true →
       st.pendingInterrupt = true) ∧
    (∀ st name, (handleMark st name).pendingInterrupt = st.pendingInterrupt) ∧
    (∀ st, (handleStop st).pendingInterrupt = st.pendingInterrupt) ∧
    (∀ st cs o textRaw, st.callState = some cs → st.isProcessing = false →
       st.pendingInterrupt = true → o.stt = .ok textRaw →
       ¬(textRaw = "" ∨ pyStripLen textRaw < 2) →
       (processSpeech st o).2.audioSent = false ∧
       (processSpeech st o).2.clears = 1 ∧
       (processSpeech st o).1.pendingInterrupt = false) :=
  ⟨fun st cs pcm now o hcs hst hspk hsp =>
      handleMedia_speech_sets_interrupt st cs pcm now o hcs hst hspk hsp,
   fun st payload now o h => handleMedia_pending st payload now o h,
   fun st o h => processSpeech_pending_mono st o h,
   fun st name => handleMark_pending st name,
   fun st => handleStop_pending st,
   fun st cs o textRaw hcs hp hpend hstt hlong =>
      ⟨(processSpeech_interrupt_abort st cs o textRaw hcs hp hpend hstt hlong).1,
       (processSpeech_interrupt_abort st cs o textRaw hcs hp hpend hstt hlong).2.1,
       (processSpeech_interrupt_abort st cs o textRaw hcs hp hpend hstt hlong).2.2.1⟩⟩

/-- The speaking session and its handler, plus a run entered with the
interrupt flag set, used to witness C2. -/
def csSpeaking : CallState :=
  { callSid := "CA1", status := .inProgress, isSpeaking := true }

/-- Handler currently playing agent audio. -/
def stSpeaking : Handler :=
  { callState := some csSpeaking, streamSid := some "MZ1" }

/-- Handler with a pending barge-in entering a pipeline run. -/
def stPend : Handler :=
  { callState := some csEx, streamSid := some "MZ1",
    pendingInterrupt := true }

/-- C2 witness: a concrete barge-in frame sets the flag, and a concrete
interrupted run aborts with exactly one clear and no audio. -/
theorem c2_witness :
    (handleMedia stSpeaking (some speechFrame) 40 oEmpty).1.pendingInterrupt
      = true ∧
    (processSpeech stPend oGood).2.audioSent = false ∧
    (processSpeech stPend oGood).2.clears = 1 ∧
    (processSpeech stPend oGood).1.pendingInterrupt = false :=
  ⟨c2_barge_in_protocol.1 stSpeaking csSpeaking speechFrame 40 oEmpty
      rfl rfl rfl (by decide),
   c2_barge_in_protocol.2.2.2.2.2 stPend csEx oGood "hello there"
      rfl rfl rfl rfl (by decide)⟩

/-! ## Pipeline-run path lemmas (claims C3 and C8) -/

theorem modifyCall_addAssistant_history (X : Handler) (r : String) :
    (X.modifyCall (fun cs => cs.addAssistantMessage r)).callState.map
        CallState.conversationHistory =
      (X.callState.map CallState.conversationHistory).map
        (fun h => h ++ [⟨.assistant, r⟩]) := by
  cases hx : X.callState <;>
    simp [Handler.modifyCall, hx, CallState.addAssistantMessage]

theorem modifyCall_addAssistant_status (X : Handler) (r : String) :
    (X.modifyCall (fun cs => cs.addAssistantMessage r)).callState.map
        CallState.status = X.callState.map CallState.status := by
  cases hx : X.callState <;>
    simp [Handler.modifyCall, hx, CallState.addAssistantMessage]

/-- A run whose transcription raises returns the state untouched. -/
theorem processSpeech_stt_error (st : Handler) (cs : CallState) (o : Oracle)
    (hcs : st.callState = some cs) (hp : st.isProcessing = false)
    (hstt : o.stt = .error ()) :
    processSpeech st o = (st, {}) := by
  obtain ⟨cso, ss, ck, sil, iu, ip, pi⟩ := st
  simp only at hcs hp
  subst hcs hp
  simp [processSpeech, processSpeechBody, hstt]

/-- A run whose transcription is empty or too short returns the state
untouched. -/
theorem processSpeech_short (st : Handler) (cs : CallState) (o : Oracle)
    (textRaw : String)
    (hcs : st.callState = some cs) (hp : st.isProcessing = false)
    (hstt : o.stt = .ok textRaw)
    (hshort : textRaw = "" ∨ pyStripLen textRaw < 2) :
    processSpeech st o = (st, {}) := by
  obtain ⟨cso, ss, ck, sil, iu, ip, pi⟩ := st
  simp only at hcs hp
  subst hcs hp
  simp [processSpeech, processSpeechBody, hstt, hshort]

/-- A run whose LLM call raises keeps the appended user turn, sends no
audio, and resets the processing guard. -/
theorem processSpeech_llm_error (st : Handler) (cs : CallState) (o : Oracle)
    (textRaw : String)
    (hcs : st.callState = some cs) (hp : st.isProcessing = false)
    (hpend : st.pendingInterrupt = false)
    (hstt : o.stt = .ok textRaw)
    (hlong : ¬(textRaw = "" ∨ pyStripLen textRaw < 2))
    (hllm : o.llm (cs.conversationHistory ++ [⟨.user, o.correct textRaw⟩]) =
      .error ()) :
    processSpeech st o =
      ({ st with callState := some (cs.addUserMessage (o.correct textRaw)) },
       {}) := by
  obtain ⟨cso, ss, ck, sil, iu, ip, pi⟩ := st
  simp only at hcs hp hpend
  subst hcs hp hpend
  simp [processSpeech, processSpeechBody, hstt, hlong, Handler.modifyCall,
    CallState.addUserMessage, hllm]

/-- A run that reaches the speak stage: the user turn and the generated
reply are both appended (whether or not the audio was actually sent),
and audio was sent iff synthesis succeeded, a stream is bound, and the
WebSocket send did not raise. -/
theorem processSpeech_full (st : Handler) (cs : CallState) (o : Oracle)
    (textRaw response : String)
    (hcs : st.callState = some cs) (hp : st.isProcessing = false)
    (hpend : st.pendingInterrupt = false)
    (hstt : o.stt = .ok textRaw)
    (hlong : ¬(textRaw = "" ∨ pyStripLen textRaw < 2))
    (hllm : o.llm (cs.conversationHistory ++ [⟨.user, o.correct textRaw⟩]) =
      .ok response) :
    (processSpeech st o).1.callState.map CallState.conversationHistory =
      some (cs.conversationHistory ++
        [⟨.user, o.correct textRaw⟩, ⟨.assistant, response⟩]) ∧
    ((processSpeech st o).2.audioSent = true ↔
      (∃ audio, o.tts response = .ok audio) ∧ st.streamSid.isSome = true ∧
        o.sendFail = false) ∧
    (processSpeech st o).2.clears = 0 ∧
    (processSpeech st o).1.isProcessing = false ∧
    (processSpeech st o).1.callState.map CallState.status =
      some cs.status := by
  obtain ⟨cso, ss, ck, sil, iu, ip, pi⟩ := st
  simp only at hcs hp hpend
  subst hcs hp hpend
  have hst1 : (Handler.modifyCall
      ⟨some cs, ss, ck, sil, iu, true, false⟩
      (fun c => c.addUserMessage (o.correct textRaw))) =
      ⟨some (cs.addUserMessage (o.correct textRaw)), ss, ck, sil, iu, true,
        false⟩ := by
    simp [Handler.modifyCall]
  simp only [processSpeech, processSpeechBody, hstt, hlong, hst1]
  simp only [CallState.addUserMessage]
  refine ?_
  constructor
  · simp [hllm, modifyCall_addAssistant_history, speak_history,
      CallState.addUserMessage]
  refine ⟨?_, ?_, ?_, ?_⟩
  · -- audioSent characterization, by cases on the speak path
    cases htts : o.tts response with
    | error e =>
        simp [speak, htts, hllm, Handler.modifyCall, CallState.addUserMessage]
    | ok audio =>
        cases ss with
        | none =>
            simp [speak, htts, hllm, Handler.modifyCall,
              CallState.addUserMessage]
        | some s =>
            cases hsf : o.sendFail with
            | false =>
                simp [speak, htts, hsf, hllm, Handler.modifyCall,
                  CallState.addUserMessage]
            | true =>
                simp [speak, htts, hsf, hllm, Handler.modifyCall,
                  CallState.addUserMessage]
  · simp [hllm, CallState.addUserMessage]
  · simp [hllm, Handler.modifyCall, speak_isProcessing,
      CallState.addUserMessage]
  · simp [hllm, modifyCall_addAssistant_status, speak_status,
      CallState.addUserMessage]

/-- Full-state form of the pre-generate interrupt abort. -/
theorem processSpeech_interrupt_abort_eq (st : Handler) (cs : CallState)
    (o : Oracle) (textRaw : String)
    (hcs : st.callState = some cs) (hp : st.isProcessing = false)
    (hpend : st.pendingInterrupt = true)
    (hstt : o.stt = .ok textRaw)
    (hlong : ¬(textRaw = "" ∨ pyStripLen textRaw < 2)) :
    processSpeech st o =
      ({ st with callState := some (cs.addUserMessage (o.correct textRaw)),
                 pendingInterrupt := false },
       { audioSent := false, clears := 1 }) := by
  obtain ⟨cso, ss, ck, sil, iu, ip, pi⟩ := st
  simp only at hcs hp hpend
  subst hcs hp hpend
  simp [processSpeech, processSpeechBody, hstt, hlong, Handler.modifyCall,
    CallState.addUserMessage]

/-- Whatever the oracle does, a run entered with the guard clear leaves
it clear. -/
theorem processSpeech_isProcessing (st : Handler) (o : Oracle)
    (hp : st.isProcessing = false) :
    (processSpeech st o).1.isProcessing = false := by
  obtain ⟨cso, ss, ck, sil, iu, ip, pi⟩ := st
  simp only at hp
  subst hp
  cases cso with
  | none => rfl
  | some cs =>
      cases hres : processSpeechBody ⟨some cs, ss, ck, sil, iu, true, pi⟩ o with
      | ok r => simp [processSpeech, hres]
      | error r => simp [processSpeech, hres]

/-- A pipeline run never changes the session's lifecycle status. -/
theorem processSpeech_status (st : Handler) (cs : CallState) (o : Oracle)
    (hcs : st.callState = some cs) (hp : st.isProcessing = false) :
    (processSpeech st o).1.callState.map CallState.status =
      some cs.status := by
  cases hstt : o.stt with
  | error e =>
      cases e
      rw [processSpeech_stt_error st cs o hcs hp hstt]
      simp [hcs]
  | ok textRaw =>
      by_cases hshort : textRaw = "" ∨ pyStripLen textRaw < 2
      · rw [processSpeech_short st cs o textRaw hcs hp hstt hshort]
        simp [hcs]
      · by_cases hpend : st.pendingInterrupt = true
        · rw [processSpeech_interrupt_abort_eq st cs o textRaw hcs hp hpend
            hstt hshort]
          simp [CallState.addUserMessage]
        · simp only [Bool.not_eq_true] at hpend
          cases hllm : o.llm (cs.conversationHistory ++
              [⟨.user, o.correct textRaw⟩]) with
          | error e =>
              cases e
              rw [processSpeech_llm_error st cs o textRaw hcs hp hpend
                hstt hshort hllm]
              simp [CallState.addUserMessage]
          | ok response =>
              exact (processSpeech_full st cs o textRaw response hcs hp
                hpend hstt hshort hllm).2.2.2.2

/-! ## Claim C8 -/

/-- C8: every pipeline exception is contained — the run returns normally
with the per-session processing guard reset and the session's status
untouched; a transcription exception leaves the handler state exactly as
it was (utterance dropped), and an LLM exception likewise ends the run
with no audio, keeping only the already-appended user turn. -/
theorem c8_pipeline_failure_contained (st : Handler) (cs : CallState)
    (o : Oracle)
    (hcs : st.callState = some cs) (hp : st.isProcessing = false) :
    (processSpeech st o).1.isProcessing = false ∧
    (processSpeech st o).1.callState.map CallState.status =
      some cs.status ∧
    (o.stt = .error () → processSpeech st o = (st, {})) ∧
    (∀ textRaw, o.stt = .ok textRaw →
      ¬(textRaw = "" ∨ pyStripLen textRaw < 2) →
      st.pendingInterrupt = false →
      o.llm (cs.conversationHistory ++ [⟨.user, o.correct textRaw⟩]) =
        .error () →
      processSpeech st o =
        ({ st with callState := some (cs.addUserMessage (o.correct textRaw)) },
         {})) :=
  ⟨processSpeech_isProcessing st o hp,
   processSpeech_status st cs o hcs hp,
   fun hstt => processSpeech_stt_error st cs o hcs hp hstt,
   fun textRaw hstt hlong hpend hllm =>
     processSpeech_llm_error st cs o textRaw hcs hp hpend hstt hlong hllm⟩

/-- Oracle whose transcription stage raises. -/
def oSttFail : Oracle :=
  { stt := .error (), correct := id, llm := fun _ => .ok "the reply",
    tts := fun _ => .ok [1, 2], sendFail := false }

/-- C8 witness: a concrete run whose transcription raises is fully
contained. -/
theorem c8_witness :
    hInit.callState = some csEx ∧ hInit.isProcessing = false ∧
    ((processSpeech hInit oSttFail).1.isProcessing = false ∧
    (processSpeech hInit oSttFail).1.callState.map CallState.status =
      some csEx.status ∧
    (oSttFail.stt = .error () → processSpeech hInit oSttFail = (hInit, {})) ∧
    (∀ textRaw, oSttFail.stt = .ok textRaw →
      ¬(textRaw = "" ∨ pyStripLen textRaw < 2) →
      hInit.pendingInterrupt = false →
      oSttFail.llm (csEx.conversationHistory ++
        [⟨.user, oSttFail.correct textRaw⟩]) = .error () →
      processSpeech hInit oSttFail =
        ({ hInit with
            callState := some (csEx.addUserMessage (oSttFail.correct textRaw)) },
         {}))) :=
  ⟨rfl, rfl, c8_pipeline_failure_contained hInit csEx oSttFail rfl rfl⟩

/-! ## Claim C3 -/

/-- C3 counterexample: (i) with a failing synthesize stage the reply is
appended to history although no audio was sent; (ii) a run aborted at
the pre-generate checkpoint still leaves the user turn in history. -/
theorem c3_counterexample :
    ((processSpeech hInit oTtsFail).2.audioSent = false ∧
     (processSpeech hInit oTtsFail).1.callState.map
        CallState.conversationHistory =
       some [⟨.user, "hello there"⟩, ⟨.assistant, "the reply"⟩]) ∧
    (processSpeech stPend oGood).1.callState.map
        CallState.conversationHistory = some [⟨.user, "hello there"⟩] := by
  decide

/-- C3 amended: history is append-only; a run aborted at the
pre-generate checkpoint leaves exactly the user turn; a run that reaches
the speak stage appends the user turn and the reply whether or not the
audio was actually sent — audio is sent iff synthesis succeeded, a
stream is bound and the send did not raise. -/
theorem c3_history_append (st : Handler) (cs : CallState) (o : Oracle)
    (hcs : st.callState = some cs) (hp : st.isProcessing = false) :
    (∃ suffix, (processSpeech st o).1.callState.map
        CallState.conversationHistory =
      some (cs.conversationHistory ++ suffix)) ∧
    (∀ textRaw, o.stt = .ok textRaw →
      ¬(textRaw = "" ∨ pyStripLen textRaw < 2) →
      st.pendingInterrupt = true →
      (processSpeech st o).1.callState.map CallState.conversationHistory =
        some (cs.conversationHistory ++ [⟨.user, o.correct textRaw⟩]) ∧
      (processSpeech st o).2.audioSent = false) ∧
    (∀ textRaw response, o.stt = .ok textRaw →
      ¬(textRaw = "" ∨ pyStripLen textRaw < 2) →
      st.pendingInterrupt = false →
      o.llm (cs.conversationHistory ++ [⟨.user, o.correct textRaw⟩]) =
        .ok response →
      (processSpeech st o).1.callState.map CallState.conversationHistory =
        some (cs.conversationHistory ++
          [⟨.user, o.correct textRaw⟩, ⟨.assistant, response⟩]) ∧
      ((processSpeech st o).2.audioSent = true ↔
        (∃ audio, o.tts response = .ok audio) ∧ st.streamSid.isSome = true ∧
          o.sendFail = false)) := by
  refine ⟨?_, ?_, ?_⟩
  · -- append-only, by cases on every path of the run
    cases hstt : o.stt with
    | error e =>
        cases e
        rw [processSpeech_stt_error st cs o hcs hp hstt]
        exact ⟨[], by simp [hcs]⟩
    | ok textRaw =>
        by_cases hshort : textRaw = "" ∨ pyStripLen textRaw < 2
        · rw [processSpeech_short st cs o textRaw hcs hp hstt hshort]
          exact ⟨[], by simp [hcs]⟩
        · by_cases hpend : st.pendingInterrupt = true
          · exact ⟨[⟨.user, o.correct textRaw⟩],
              (processSpeech_interrupt_abort st cs o textRaw hcs hp hpend
                hstt hshort).2.2.2⟩
          · simp only [Bool.not_eq_true] at hpend
            cases hllm : o.llm (cs.conversationHistory ++
                [⟨.user, o.correct textRaw⟩]) with
            | error e =>
                cases e
                rw [processSpeech_llm_error st cs o textRaw hcs hp hpend
                  hstt hshort hllm]
                exact ⟨[⟨.user, o.correct textRaw⟩],
                  by simp [CallState.addUserMessage]⟩
            | ok response =>
                exact ⟨[⟨.user, o.correct textRaw⟩, ⟨.assistant, response⟩],
                  (processSpeech_full st cs o textRaw response hcs hp hpend
                    hstt hshort hllm).1⟩
  · intro textRaw hstt hlong hpend
    have h := processSpeech_interrupt_abort st cs o textRaw hcs hp hpend
      hstt hlong
    exact ⟨h.2.2.2, h.1⟩
  · intro textRaw response hstt hlong hpend hllm
    have h := processSpeech_full st cs o textRaw response hcs hp hpend
      hstt hlong hllm
    exact ⟨h.1, h.2.1⟩

/-- C3 witness: the amended characterization at a successful concrete
run. -/
theorem c3_witness :
    hInit.callState = some csEx ∧ hInit.isProcessing = false ∧
    ((∃ suffix, (processSpeech hInit oGood).1.callState.map
        CallState.conversationHistory =
      some (csEx.conversationHistory ++ suffix)) ∧
    (∀ textRaw, oGood.stt = .ok textRaw →
      ¬(textRaw = "" ∨ pyStripLen textRaw < 2) →
      hInit.pendingInterrupt = true →
      (processSpeech hInit oGood).1.callState.map
          CallState.conversationHistory =
        some (csEx.conversationHistory ++ [⟨.user, oGood.correct textRaw⟩]) ∧
      (processSpeech hInit oGood).2.audioSent = false) ∧
    (∀ textRaw response, oGood.stt = .ok textRaw →
      ¬(textRaw = "" ∨ pyStripLen textRaw < 2) →
      hInit.pendingInterrupt = false →
      oGood.llm (csEx.conversationHistory ++
        [⟨.user, oGood.correct textRaw⟩]) = .ok response →
      (processSpeech hInit oGood).1.callState.map
          CallState.conversationHistory =
        some (csEx.conversationHistory ++
          [⟨.user, oGood.correct textRaw⟩, ⟨.assistant, response⟩]) ∧
      ((processSpeech hInit oGood).2.audioSent = true ↔
        (∃ audio, oGood.tts response = .ok audio) ∧
          hInit.streamSid.isSome = true ∧ oGood.sendFail = false))) :=
  ⟨rfl, rfl, c3_history_append hInit csEx oGood rfl rfl⟩

/-! ## Utterance-detection step lemmas (claim C9) -/

theorem detect_speechFrame :
    detect_speech_end speechFrame SILENCE_THRESHOLD = false := by decide

theorem detect_silenceFrame :
    detect_speech_end silenceFrame SILENCE_THRESHOLD = true := by decide

theorem handleMedia_speech (st : Handler) (cs : CallState) (pcm : List Int)
    (t : Nat) (o : Oracle)
    (hcs : st.callState = some cs) (hst : cs.status = CallStatus.inProgress)
    (hisp : cs.isSpeaking = false)
    (hsp : detect_speech_end pcm SILENCE_THRESHOLD = false) :
    handleMedia st (some pcm) t o =
      ({ st with speechChunks := st.speechChunks ++ pcm,
                 silenceStart := none, isUserSpeaking := true }, false) := by
  simp [handleMedia, hcs, hst, hsp, hisp]

theorem handleMedia_silence_begin (st : Handler) (cs : CallState)
    (pcm : List Int) (t : Nat) (o : Oracle)
    (hcs : st.callState = some cs) (hst : cs.status = CallStatus.inProgress)
    (hsil : detect_speech_end pcm SILENCE_THRESHOLD = true)
    (hu : st.isUserSpeaking = true) (hss : st.silenceStart = none) :
    handleMedia st (some pcm) t o =
      ({ st with silenceStart := some t }, false) := by
  simp [handleMedia, hcs, hst, hsil, hu, hss]

theorem handleMedia_silence_hold (st : Handler) (pcm : List Int)
    (t t0 : Nat) (o : Oracle)
    (hsil : detect_speech_end pcm SILENCE_THRESHOLD = true)
    (hss : st.silenceStart = some t0)
    (hlt : t - t0 < SILENCE_DURATION_MS) :
    handleMedia st (some pcm) t o = (st, false) := by
  cases hcs : st.callState with
  | none => simp [handleMedia, hcs]
  | some cs =>
      by_cases hst : cs.status = CallStatus.inProgress
      · by_cases hu : st.isUserSpeaking = true
        · simp [handleMedia, hcs, hst, hsil, hu, hss, Nat.not_le.mpr hlt]
        · simp only [Bool.not_eq_true] at hu
          simp [handleMedia, hcs, hst, hsil, hu]
      · simp [handleMedia, hcs, hst]

theorem handleMedia_silence_fire_trigger (st : Handler) (cs : CallState)
    (pcm : List Int) (t t0 : Nat) (o : Oracle)
    (hcs : st.callState = some cs) (hst : cs.status = CallStatus.inProgress)
    (hsil : detect_speech_end pcm SILENCE_THRESHOLD = true)
    (hu : st.isUserSpeaking = true) (hss : st.silenceStart = some t0)
    (hge : SILENCE_DURATION_MS ≤ t - t0)
    (hlen : MIN_SPEECH_MS * 32 < 2 * st.speechChunks.length) :
    handleMedia st (some pcm) t o =
      (resetAudioState (processSpeech st o).1, true) := by
  simp [handleMedia, hcs, hst, hsil, hu, hss, hge, hlen]

theorem handleMedia_silence_fire_short (st : Handler) (cs : CallState)
    (pcm : List Int) (t t0 : Nat) (o : Oracle)
    (hcs : st.callState = some cs) (hst : cs.status = CallStatus.inProgress)
    (hsil : detect_speech_end pcm SILENCE_THRESHOLD = true)
    (hu : st.isUserSpeaking = true) (hss : st.silenceStart = some t0)
    (hge : SILENCE_DURATION_MS ≤ t - t0)
    (hlen : ¬(MIN_SPEECH_MS * 32 < 2 * st.speechChunks.length)) :
    handleMedia st (some pcm) t o = (resetAudioState st, false) := by
  simp [handleMedia, hcs, hst, hsil, hu, hss, hge, hlen]

theorem handleMedia_silence_idle (st : Handler) (pcm : List Int) (t : Nat)
    (o : Oracle)
    (hsil : detect_speech_end pcm SILENCE_THRESHOLD = true)
    (hu : st.isUserSpeaking = false) :
    handleMedia st (some pcm) t o = (st, false) := by
  cases hcs : st.callState with
  | none => simp [handleMedia, hcs]
  | some cs =>
      by_cases hst : cs.status = CallStatus.inProgress
      · simp [handleMedia, hcs, hst, hsil, hu]
      · simp [handleMedia, hcs, hst]

theorem runFrames_append (st : Handler) (o : Oracle)
    (L1 L2 : List (List Int × Nat)) :
    runFrames st o (L1 ++ L2) =
      ((runFrames (runFrames st o L1).1 o L2).1,
       (runFrames st o L1).2 + (runFrames (runFrames st o L1).1 o L2).2) := by
  induction L1 generalizing st with
  | nil => simp [runFrames]
  | cons f rest ih =>
      simp [runFrames, ih, Nat.add_assoc]

theorem runFrames_silence_idle (st : Handler) (o : Oracle)
    (L : List (List Int × Nat))
    (hu : st.isUserSpeaking = false)
    (hL : ∀ p ∈ L, detect_speech_end p.1 SILENCE_THRESHOLD = true) :
    runFrames st o L = (st, 0) := by
  induction L with
  | nil => rfl
  | cons f rest ih =>
      have hstep := handleMedia_silence_idle st f.1 f.2 o
        (hL f (List.mem_cons_self f rest)) hu
      simp [runFrames, hstep,
        ih (fun p hp => hL p (List.mem_cons_of_mem f hp))]

theorem runFrames_silence_hold (st : Handler) (o : Oracle) (t0 : Nat)
    (L : List (List Int × Nat))
    (hss : st.silenceStart = some t0)
    (hL : ∀ p ∈ L, detect_speech_end p.1 SILENCE_THRESHOLD = true ∧
      p.2 - t0 < SILENCE_DURATION_MS) :
    runFrames st o L = (st, 0) := by
  induction L with
  | nil => rfl
  | cons f rest ih =>
      have h1 := hL f (List.mem_cons_self f rest)
      have hstep := handleMedia_silence_hold st f.1 f.2 t0 o h1.1 hss h1.2
      simp [runFrames, hstep,
        ih (fun p hp => hL p (List.mem_cons_of_mem f hp))]

theorem runFrames_cons (st : Handler) (o : Oracle) (f : List Int × Nat)
    (rest : List (List Int × Nat)) :
    runFrames st o (f :: rest) =
      ((runFrames (handleMedia st (some f.1) f.2 o).1 o rest).1,
       (if (handleMedia st (some f.1) f.2 o).2 then 1 else 0) +
         (runFrames (handleMedia st (some f.1) f.2 o).1 o rest).2) := rfl

theorem runFrames_speech_cont (st : Handler) (cs : CallState) (o : Oracle)
    (L : List (List Int × Nat))
    (hcs : st.callState = some cs) (hst : cs.status = CallStatus.inProgress)
    (hisp : cs.isSpeaking = false)
    (hsil : st.silenceStart = none) (hu : st.isUserSpeaking = true)
    (hL : ∀ p ∈ L, detect_speech_end p.1 SILENCE_THRESHOLD = false) :
    runFrames st o L =
      ({ st with
          speechChunks := st.speechChunks ++ (L.map Prod.fst).flatten }, 0) := by
  induction L generalizing st with
  | nil => simp [runFrames]
  | cons f rest ih =>
      have hstep := handleMedia_speech st cs f.1 f.2 o hcs hst hisp
        (hL f (List.mem_cons_self f rest))
      have hrec := ih
        { st with speechChunks := st.speechChunks ++ f.1,
                  silenceStart := none, isUserSpeaking := true }
        hcs rfl rfl (fun p hp => hL p (List.mem_cons_of_mem f hp))
      rw [runFrames_cons, hstep]
      simp only
      rw [hrec]
      simp [List.append_assoc]
      constructor
      · rw [← hsil]
      · rw [← hu]

theorem runFrames_speech (st : Handler) (cs : CallState) (o : Oracle)
    (L : List (List Int × Nat))
    (hcs : st.callState = some cs) (hst : cs.status = CallStatus.inProgress)
    (hisp : cs.isSpeaking = false) (hne : L ≠ [])
    (hL : ∀ p ∈ L, detect_speech_end p.1 SILENCE_THRESHOLD = false) :
    runFrames st o L =
      ({ st with speechChunks := st.speechChunks ++ (L.map Prod.fst).flatten,
                 silenceStart := none, isUserSpeaking := true }, 0) := by
  cases L with
  | nil => exact absurd rfl hne
  | cons f rest =>
      have hstep := handleMedia_speech st cs f.1 f.2 o hcs hst hisp
        (hL f (List.mem_cons_self f rest))
      have hrec := runFrames_speech_cont
        { st with speechChunks := st.speechChunks ++ f.1,
                  silenceStart := none, isUserSpeaking := true }
        cs o rest hcs hst hisp rfl rfl
        (fun p hp => hL p (List.mem_cons_of_mem f hp))
      rw [runFrames_cons, hstep]
      simp only
      rw [hrec]
      simp [List.append_assoc]

theorem flatten_replicate (k n : Nat) (a : Int) :
    (List.replicate k (List.replicate n a)).flatten =
      List.replicate (k * n) a := by
  induction k with
  | zero => simp
  | succ k ih =>
      rw [List.replicate_succ, List.flatten_cons, ih, ← List.replicate_add]
      congr 1
      rw [Nat.succ_mul, Nat.add_comm]

/-- The state after `k ≥ 1` speech frames from the initial handler. -/
def speechAccum (k : Nat) : Handler :=
  { hInit with speechChunks := List.replicate (k * 320) 600,
               silenceStart := none, isUserSpeaking := true }

theorem runFrames_speech_phase (k : Nat) (hk : 1 ≤ k) :
    runFrames hInit oEmpty
      ((List.range k).map (fun j => (speechFrame, CHUNK_DURATION_MS * j))) =
      (speechAccum k, 0) := by
  have hne : ((List.range k).map
      (fun j => (speechFrame, CHUNK_DURATION_MS * j))) ≠ [] := by
    simp [List.map_eq_nil_iff, List.range_eq_nil]
    omega
  rw [runFrames_speech hInit csEx oEmpty _ rfl rfl rfl hne ?hall]
  case hall =>
    intro p hp
    simp only [List.mem_map] at hp
    obtain ⟨j, _, rfl⟩ := hp
    exact detect_speechFrame
  have hmapfst : (((List.range k).map
      (fun j => (speechFrame, CHUNK_DURATION_MS * j))).map Prod.fst) =
      List.replicate k speechFrame := by
    rw [List.map_map]
    have hc : (Prod.fst ∘ fun j =>
        ((speechFrame, CHUNK_DURATION_MS * j) : List Int × Nat)) =
        fun _ => speechFrame := rfl
    rw [hc, List.map_const', List.length_range]
  rw [hmapfst]
  show ({ hInit with
      speechChunks := hInit.speechChunks ++ (List.replicate k speechFrame).flatten,
      silenceStart := none, isUserSpeaking := true }, 0) = (speechAccum k, 0)
  simp only [speechFrame]
  rw [flatten_replicate]
  rfl

/-- The state while the trailing-silence timer runs, having started at
the first silence frame (time `CHUNK_DURATION_MS * (k + 0)`). -/
def silenceWait (k : Nat) : Handler :=
  { speechAccum k with silenceStart := some (CHUNK_DURATION_MS * (k + 0)) }

theorem c9_framesSplit (k r : Nat) : mkC9Frames k (36 + r) =
    ((List.range k).map (fun j => (speechFrame, CHUNK_DURATION_MS * j))) ++
    ([(silenceFrame, CHUNK_DURATION_MS * (k + 0))] ++
     ((List.range 34).map
       (fun j => (silenceFrame, CHUNK_DURATION_MS * (k + (1 + j))))) ++
     [(silenceFrame, CHUNK_DURATION_MS * (k + 35))] ++
     ((List.range r).map
       (fun j => (silenceFrame, CHUNK_DURATION_MS * (k + (36 + j)))))) := by
  have hsplit36 : List.range 36 =
      [0] ++ (List.range 34).map (fun j => 1 + j) ++ [35] := by decide
  have hrange : List.range (36 + r) =
      ([0] ++ (List.range 34).map (fun j => 1 + j) ++ [35]) ++
        (List.range r).map (fun j => 36 + j) := by
    rw [List.range_add, hsplit36]
  unfold mkC9Frames
  rw [hrange]
  simp only [List.map_append, List.map_map, List.map_cons, List.map_nil]
  rfl

/-- Phase B0: the first silence frame after speech starts the timer. -/
theorem c9_phaseB0 (k : Nat) : runFrames (speechAccum k) oEmpty
    [(silenceFrame, CHUNK_DURATION_MS * (k + 0))] = (silenceWait k, 0) := by
  rw [runFrames_cons,
    handleMedia_silence_begin (speechAccum k) csEx silenceFrame
      (CHUNK_DURATION_MS * (k + 0)) oEmpty rfl rfl detect_silenceFrame
      rfl rfl]
  rfl

/-- Phase B1: silence frames 1..34 stay below the 700ms threshold. -/
theorem c9_phaseB1 (k : Nat) : runFrames (silenceWait k) oEmpty
    ((List.range 34).map
      (fun j => (silenceFrame, CHUNK_DURATION_MS * (k + (1 + j))))) =
    (silenceWait k, 0) := by
  apply runFrames_silence_hold (silenceWait k) oEmpty
    (CHUNK_DURATION_MS * (k + 0)) _ rfl
  intro p hp
  simp only [List.mem_map, List.mem_range] at hp
  obtain ⟨j, hj, rfl⟩ := hp
  refine ⟨detect_silenceFrame, ?_⟩
  simp only [CHUNK_DURATION_MS, SILENCE_DURATION_MS]
  omega

/-- Phase B2, accumulated speech strictly above the minimum: the 36th
silence frame reaches the threshold and triggers exactly one run. -/
theorem c9_phaseB2_fire (k : Nat) (hk15 : 15 < k) :
    runFrames (silenceWait k) oEmpty
      [(silenceFrame, CHUNK_DURATION_MS * (k + 35))] = (hInit, 1) := by
  have hrun0 : processSpeech (silenceWait k) oEmpty = (silenceWait k, {}) :=
    processSpeech_short (silenceWait k) csEx oEmpty "" rfl rfl rfl
      (Or.inl rfl)
  have hge : SILENCE_DURATION_MS ≤
      CHUNK_DURATION_MS * (k + 35) - CHUNK_DURATION_MS * (k + 0) := by
    simp only [CHUNK_DURATION_MS, SILENCE_DURATION_MS]
    omega
  have hlen : MIN_SPEECH_MS * 32 <
      2 * (silenceWait k).speechChunks.length := by
    simp only [silenceWait, speechAccum, MIN_SPEECH_MS,
      List.length_replicate]
    omega
  rw [runFrames_cons,
    handleMedia_silence_fire_trigger (silenceWait k) csEx silenceFrame
      (CHUNK_DURATION_MS * (k + 35)) (CHUNK_DURATION_MS * (k + 0))
      oEmpty rfl rfl detect_silenceFrame rfl rfl hge hlen,
    hrun0]
  exact Prod.ext rfl (by simp [runFrames])

/-- Phase B2, accumulated speech at or below the minimum: the silence
threshold is reached but no run is triggered; the accumulator resets. -/
theorem c9_phaseB2_drop (k : Nat) (hk15 : ¬ 15 < k) :
    runFrames (silenceWait k) oEmpty
      [(silenceFrame, CHUNK_DURATION_MS * (k + 35))] = (hInit, 0) := by
  have hge : SILENCE_DURATION_MS ≤
      CHUNK_DURATION_MS * (k + 35) - CHUNK_DURATION_MS * (k + 0) := by
    simp only [CHUNK_DURATION_MS, SILENCE_DURATION_MS]
    omega
  have hlen : ¬ (MIN_SPEECH_MS * 32 <
      2 * (silenceWait k).speechChunks.length) := by
    simp only [silenceWait, speechAccum, MIN_SPEECH_MS,
      List.length_replicate]
    omega
  rw [runFrames_cons,
    handleMedia_silence_fire_short (silenceWait k) csEx silenceFrame
      (CHUNK_DURATION_MS * (k + 35)) (CHUNK_DURATION_MS * (k + 0))
      oEmpty rfl rfl detect_silenceFrame rfl rfl hge hlen]
  exact Prod.ext rfl (by simp [runFrames])

/-- Phase B3: once the audio state is reset, further silence is a no-op. -/
theorem c9_phaseB3 (k r : Nat) : runFrames hInit oEmpty
    ((List.range r).map
      (fun j => (silenceFrame, CHUNK_DURATION_MS * (k + (36 + j))))) =
    (hInit, 0) := by
  apply runFrames_silence_idle hInit oEmpty _ rfl
  intro p hp
  simp only [List.mem_map, List.mem_range] at hp
  obtain ⟨j, hj, rfl⟩ := hp
  exact detect_silenceFrame

theorem runFrames_append_eq (st st1 st2 : Handler) (o : Oracle)
    (A B : List (List Int × Nat)) (n1 n2 n : Nat)
    (hA : runFrames st o A = (st1, n1)) (hB : runFrames st1 o B = (st2, n2))
    (hn : n1 + n2 = n) :
    runFrames st o (A ++ B) = (st2, n) := by
  rw [runFrames_append, hA]
  simp only
  rw [hB]
  simp only
  rw [hn]

/-- Running `k ≥ 1` speech frames then `m ≥ 36` silence frames from the
initial handler returns it to its initial audio state and triggers the
pipeline exactly once when the accumulated speech bytes strictly exceed
the minimum (`k ≥ 16` frames), and never otherwise. -/
theorem c9_run (k m : Nat) (hk : 1 ≤ k) (hm : 36 ≤ m) :
    runFrames hInit oEmpty (mkC9Frames k m) =
      (hInit, if 15 < k then 1 else 0) := by
  obtain ⟨r, rfl⟩ : ∃ r, m = 36 + r := ⟨m - 36, by omega⟩
  have hB2 : runFrames (silenceWait k) oEmpty
      [(silenceFrame, CHUNK_DURATION_MS * (k + 35))] =
      (hInit, if 15 < k then 1 else 0) := by
    by_cases hk15 : 15 < k
    · rw [if_pos hk15]
      exact c9_phaseB2_fire k hk15
    · rw [if_neg hk15]
      exact c9_phaseB2_drop k hk15
  rw [c9_framesSplit]
  refine runFrames_append_eq hInit (speechAccum k) hInit oEmpty _ _ 0
    (if 15 < k then 1 else 0) _ (runFrames_speech_phase k hk) ?_ (by omega)
  refine runFrames_append_eq (speechAccum k) hInit hInit oEmpty _ _
    (if 15 < k then 1 else 0) 0 _ ?_ (c9_phaseB3 k r) (by omega)
  refine runFrames_append_eq (speechAccum k) (silenceWait k) hInit oEmpty _ _
    0 (if 15 < k then 1 else 0) _ ?_ hB2 (by omega)
  exact runFrames_append_eq (speechAccum k) (silenceWait k) (silenceWait k)
    oEmpty _ _ 0 0 _ (c9_phaseB0 k) (c9_phaseB1 k) (by omega)

/-- A speech frame (in a live session) always resets the silence timer
to unset and keeps accumulating, whatever the other handler state is. -/
theorem handleMedia_speech_resets_timer (st : Handler) (cs : CallState)
    (pcm : List Int) (t : Nat) (o : Oracle)
    (hcs : st.callState = some cs) (hst : cs.status = CallStatus.inProgress)
    (hsp : detect_speech_end pcm SILENCE_THRESHOLD = false) :
    (handleMedia st (some pcm) t o).1.silenceStart = none ∧
    (handleMedia st (some pcm) t o).1.speechChunks =
      st.speechChunks ++ pcm ∧
    (handleMedia st (some pcm) t o).1.isUserSpeaking = true := by
  by_cases hspk : cs.isSpeaking = true
  · simp [handleMedia, hcs, hst, hsp, hspk]
  · simp only [Bool.not_eq_true] at hspk
    simp [handleMedia, hcs, hst, hsp, hspk]

/-! ## Claim C9 -/

/-- C9 counterexample: 15 speech frames are exactly the minimum speech
duration (300ms at 20ms per frame), and 36 silence frames exceed the
minimum silence duration, yet no utterance-complete trigger occurs —
the code requires strictly more than the minimum speech bytes. -/
theorem c9_counterexample :
    MIN_SPEECH_MS = 15 * CHUNK_DURATION_MS ∧
    SILENCE_DURATION_MS ≤ 36 * CHUNK_DURATION_MS ∧
    (runFrames hInit oEmpty (mkC9Frames 15 36)).2 = 0 := by
  refine ⟨by decide, by decide, ?_⟩
  rw [c9_run 15 36 (by omega) (by omega)]
  simp

/-- C9 amended: with strictly more than the minimum of accumulated
speech (k ≥ 16 frames of 20ms) followed by at least the minimum silence,
exactly one pipeline trigger occurs and the audio state resets; with
speech at or below the minimum (k ≤ 15), no trigger occurs and the
accumulator still resets; and a speech frame always resets the silence
timer to unset while continuing to accumulate. -/
theorem c9_utterance_detection (k m : Nat) (hk : 16 ≤ k) (hm : 36 ≤ m) :
    runFrames hInit oEmpty (mkC9Frames k m) = (hInit, 1) ∧
    (∀ k' m', 1 ≤ k' → k' ≤ 15 → 36 ≤ m' →
       runFrames hInit oEmpty (mkC9Frames k' m') = (hInit, 0)) ∧
    (∀ st cs pcm t o, st.callState = some cs →
       cs.status = CallStatus.inProgress →
       detect_speech_end pcm SILENCE_THRESHOLD = false →
       (handleMedia st (some pcm) t o).1.silenceStart = none ∧
       (handleMedia st (some pcm) t o).1.speechChunks =
         st.speechChunks ++ pcm ∧
       (handleMedia st (some pcm) t o).1.isUserSpeaking = true) := by
  refine ⟨?_, ?_, ?_⟩
  · rw [c9_run k m (by omega) hm]
    rw [if_pos (by omega)]
  · intro k' m' hk1 hk15 hm'
    rw [c9_run k' m' hk1 hm']
    rw [if_neg (by omega)]
  · intro st cs pcm t o hcs hst hsp
    exact handleMedia_speech_resets_timer st cs pcm t o hcs hst hsp

/-- C9 witness: the amended behavior at 16 speech frames and 36 silence
frames. -/
theorem c9_witness :
    (16 ≤ 16 ∧ 36 ≤ 36) ∧
    (runFrames hInit oEmpty (mkC9Frames 16 36) = (hInit, 1) ∧
    (∀ k' m', 1 ≤ k' → k' ≤ 15 → 36 ≤ m' →
       runFrames hInit oEmpty (mkC9Frames k' m') = (hInit, 0)) ∧
    (∀ st cs pcm t o, st.callState = some cs →
       cs.status = CallStatus.inProgress →
       detect_speech_end pcm SILENCE_THRESHOLD = false →
       (handleMedia st (some pcm) t o).1.silenceStart = none ∧
       (handleMedia st (some pcm) t o).1.speechChunks =
         st.speechChunks ++ pcm ∧
       (handleMedia st (some pcm) t o).1.isUserSpeaking = true)) :=
  ⟨⟨by omega, by omega⟩, c9_utterance_detection 16 36 (by omega) (by omega)⟩

end BuddyHelps
